import Mathlib

/-
Verification of the acceptance-decision core described by the specification of
the atomistic-cookbook examples.  The repository source is narrative: the
Metropolis formulas appear in tutorial comments of
examples/hea-remd-mc-lammps/hea-remd-mc-lammps.py, and the specification
documents a minimal module (AcceptanceEvaluator, AtomSwapProposer,
ReplicaExchangeScheduler) implied by that text.  The only executable statements
in the repository are embedded below as heaScriptTrace.
-/

/-- Modelled from the spec: the error taxonomy of section 7, missing from the
source tree (ConfigurationError, InsufficientCandidates, DegenerateExchange,
EngineFailure). -/
inductive MCError where
  | configurationError : MCError
  | insufficientCandidates : MCError
  | degenerateExchange : MCError
  | engineFailure : MCError
deriving DecidableEq

/-- Modelled from the spec: a Configuration holds the atomic positions and the
species labels of one replica at one simulation state (section 3); the data
type itself is missing from the source tree. -/
structure Configuration where
  positions : List (ℝ × ℝ × ℝ)
  species : List ℕ

/-- Modelled from the spec: a Replica is a (Configuration, temperature) pair
indexed by a temperature rank (section 3); missing from the source tree. -/
structure Replica where
  config : Configuration
  temp : ℝ

namespace AcceptanceEvaluator

/-- Modelled from the spec: the atom-swap acceptance probability
p = min(1, exp(-delta_energy * beta)) with beta = 1/(kB T) (section 4.1); the
evaluator itself is missing from the source tree, the formula is stated in the
tutorial comment of hea-remd-mc-lammps.py. -/
noncomputable def acceptanceProbability (delta_energy beta : ℝ) : ℝ :=
  min 1 (Real.exp (-(delta_energy * beta)))

/-- Modelled from the spec: decide(delta_energy, beta, random_uniform) accepts
iff random_uniform < p, with random_uniform drawn from [0,1) by an injected
source (section 4.1); missing from the source tree. -/
def decide (delta_energy beta random_uniform : ℝ) : Prop :=
  random_uniform < acceptanceProbability delta_energy beta

open Classical in
/-- Modelled from the spec: the replica-exchange acceptance probability
p = min(1, exp(-delta_energy / (kB (T1 - T2)))), which must fail fast with
DegenerateExchange when T1 = T2 instead of dividing by zero (sections 4.1 and
7); missing from the source tree, the formula is stated in the tutorial comment
of hea-remd-mc-lammps.py. -/
noncomputable def exchangeDecision (kB delta_energy T1 T2 : ℝ) :
    Except MCError ℝ :=
  if T1 = T2 then .error .degenerateExchange
  else .ok (min 1 (Real.exp (-(delta_energy / (kB * (T1 - T2))))))

end AcceptanceEvaluator

/-- Modelled from the spec: an EligibilityGroup is one of any-pair,
cutoff-radius-neighbors or element-restricted-set (section 3); missing from the
source tree.  The geometric predicate of the cutoff variant (which sites lie
within the configured cutoff) is abstracted as a supplied site predicate, since
the spec leaves the cutoff value as a required configuration input
(section 9). -/
inductive EligibilityGroup where
  | anyPair : EligibilityGroup
  | cutoffRadiusNeighbors (withinCutoff : ℕ → Bool) : EligibilityGroup
  | elementRestricted (allowed : List ℕ) : EligibilityGroup

/-- Modelled from the spec: the per-site eligibility predicate of a group
(sections 3 and 4.2); missing from the source tree. -/
def EligibilityGroup.eligible (g : EligibilityGroup) (c : Configuration)
    (i : ℕ) : Bool :=
  match g with
  | .anyPair => true
  | .cutoffRadiusNeighbors withinCutoff => withinCutoff i
  | .elementRestricted allowed => allowed.contains (c.species.getD i 0)

/-- Modelled from the spec: the sites of a configuration that satisfy the
eligibility predicate of the group; missing from the source tree. -/
def eligibleSites (c : Configuration) (g : EligibilityGroup) : List ℕ :=
  (List.range c.species.length).filter (fun i => g.eligible c i)

namespace AtomSwapProposer

/-- Modelled from the spec: propose(configuration, eligibility_group,
random_source) selects two distinct eligible site indices using the injected
random source, and fails with InsufficientCandidates if fewer than two eligible
sites exist (section 4.2); missing from the source tree. -/
def propose (c : Configuration) (g : EligibilityGroup) (randomSource : ℕ) :
    Except MCError (ℕ × ℕ) :=
  let es := eligibleSites c g
  if es.length < 2 then .error .insufficientCandidates
  else
    let k1 := randomSource % es.length
    let k2raw := (randomSource / es.length) % (es.length - 1)
    let k2 := if k2raw < k1 then k2raw else k2raw + 1
    .ok (es.getD k1 0, es.getD k2 0)

end AtomSwapProposer

/-- Modelled from the spec: the explicit mutation step that swaps the species
labels at the two proposed indices (section 4.2 and glossary); missing from the
source tree. -/
def applySwap (c : Configuration) (i j : ℕ) : Configuration :=
  let si := c.species.getD i 0
  let sj := c.species.getD j 0
  { c with species := (c.species.set i sj).set j si }

/-- Modelled from the spec: the outcome of an atom-swap move, which mutates the
configuration only when the move was accepted and leaves it unchanged when
rejected (sections 2 and 8); missing from the source tree. -/
def applyMove (c : Configuration) (i j : ℕ) (accepted : Bool) : Configuration :=
  if accepted then applySwap c i j else c

open Classical in
/-- Modelled from the spec: one complete atom-swap move — propose, evaluate
acceptance, and only then mutate (control flow of section 2); missing from the
source tree. -/
noncomputable def swapMoveStep (c : Configuration) (g : EligibilityGroup)
    (randomSource : ℕ) (deltaEnergy : ℕ × ℕ → ℝ) (beta randomUniform : ℝ) :
    Configuration :=
  match AtomSwapProposer.propose c g randomSource with
  | .error _ => c
  | .ok (i, j) =>
      if AcceptanceEvaluator.decide (deltaEnergy (i, j)) beta randomUniform
      then applySwap c i j else c

/-- Modelled from the spec: an accepted replica exchange swaps the
Configurations of the two replicas while each temperature remains attached to
its rank (section 4.3); missing from the source tree. -/
def applyExchange (replicas : List Replica) (a b : ℕ) : List Replica :=
  match replicas[a]?, replicas[b]? with
  | some ra, some rb =>
      (replicas.set a { ra with config := rb.config }).set b
        { rb with config := ra.config }
  | _, _ => replicas

/-- Modelled from the spec: the phases of the ReplicaExchangeScheduler state
machine (section 4.3); missing from the source tree. -/
inductive SchedulerPhase where
  | Running : SchedulerPhase
  | ExchangeDue : SchedulerPhase
  | Exchanging : SchedulerPhase
  | Terminated : SchedulerPhase
deriving DecidableEq

/-- Modelled from the spec: the scheduler state, a phase together with the
number of simulation steps taken so far; missing from the source tree. -/
structure SchedulerState where
  phase : SchedulerPhase
  stepCount : ℕ
deriving DecidableEq

/-- Modelled from the spec: the scheduler configuration, a total step count and
an exchange interval (section 4.3); missing from the source tree. -/
structure SchedulerConfig where
  totalSteps : ℕ
  exchangeInterval : ℕ
deriving DecidableEq

/-- Modelled from the spec: one transition of the ReplicaExchangeScheduler
state machine — Terminated accepts no further transition, ExchangeDue moves to
Exchanging, Exchanging returns to Running, and Running advances one step,
terminating when the configured total step count is reached and otherwise
becoming ExchangeDue on each multiple of the exchange interval (section 4.3);
missing from the source tree. -/
def tick (cfg : SchedulerConfig) (s : SchedulerState) : SchedulerState :=
  match s.phase with
  | .Terminated => s
  | .ExchangeDue => { s with phase := .Exchanging }
  | .Exchanging => { s with phase := .Running }
  | .Running =>
      let n := s.stepCount + 1
      if cfg.totalSteps ≤ n then { phase := .Terminated, stepCount := n }
      else if n % cfg.exchangeInterval = 0 then
        { phase := .ExchangeDue, stepCount := n }
      else { phase := .Running, stepCount := n }

/-- Modelled from the spec: a temperature ladder has a degenerate configured
replica pair when two adjacent ranks carry equal temperatures (sections 4.3 and
7); missing from the source tree. -/
def degenerateAdjacent : List ℝ → Prop
  | [] => False
  | [_] => False
  | t1 :: t2 :: rest => t1 = t2 ∨ degenerateAdjacent (t2 :: rest)

open Classical in
/-- Modelled from the spec: setup validates the configured replica pairs and
raises DegenerateExchange before any simulation step runs (section 7); missing
from the source tree. -/
noncomputable def setup (temps : List ℝ) : Except MCError SchedulerState :=
  if degenerateAdjacent temps then .error .degenerateExchange
  else .ok { phase := .Running, stepCount := 0 }

/-- Modelled from the spec: a run is setup followed by the step loop; the
second component counts the simulation steps executed, and on a setup failure
the error is returned with zero steps executed (section 7); missing from the
source tree. -/
noncomputable def runSimulation (temps : List ℝ) (cfg : SchedulerConfig) :
    Except MCError SchedulerState × ℕ :=
  match setup temps with
  | .error e => (.error e, 0)
  | .ok s => (.ok ((tick cfg)^[cfg.totalSteps] s), cfg.totalSteps)

/-- The external calls the tutorial script can make: structure input through
ase.io.read and visualization through chemiscope.show. -/
inductive ExtCall where
  | readFrames (path : String) (index : String) : ExtCall
  | showStructures (frames : List Configuration) (mode : String) : ExtCall

/-- Shallow embedding of the executable statements of
examples/hea-remd-mc-lammps/hea-remd-mc-lammps.py (lines 149 and 150): read
every frame of resources/hea.xyz, pass them to the visualization call, and
discard the returned widget.  The external collaborators are parameters: the
reader maps a path and an index string to the frames of the file, and the
visualization returns an arbitrary value that the script never consumes. -/
def heaScriptTrace {α : Type} (readAll : String → String → List Configuration)
    (showFn : List Configuration → String → α) : List ExtCall :=
  let atoms := readAll "resources/hea.xyz" ":"
  let _widget := showFn atoms "structure"
  [ExtCall.readFrames "resources/hea.xyz" ":",
   ExtCall.showStructures atoms "structure"]

/-- Helper: with nonpositive energy difference and positive beta the clamped
probability is exactly 1, so any random_uniform below 1 is accepted. -/
lemma accept_of_nonpos {d b u : ℝ} (hd : d ≤ 0) (hb : 0 < b) (hu1 : u < 1) :
    AcceptanceEvaluator.decide d b u := by
  unfold AcceptanceEvaluator.decide AcceptanceEvaluator.acceptanceProbability
  have h1 : (0 : ℝ) ≤ -(d * b) := by nlinarith
  have h2 : (1 : ℝ) ≤ Real.exp (-(d * b)) := Real.one_le_exp h1
  rw [min_eq_left h2]
  exact hu1

/-- C1: for every delta_energy, beta > 0 and random_uniform in [0,1), decide
returns true iff random_uniform < min(1, exp(-delta_energy * beta)); in
particular any nonpositive delta_energy is accepted regardless of
random_uniform. -/
theorem decide_metropolis_formula (d b u : ℝ) (hb : 0 < b) (hu0 : 0 ≤ u)
    (hu1 : u < 1) :
    (AcceptanceEvaluator.decide d b u ↔ u < min 1 (Real.exp (-(d * b)))) ∧
    (d ≤ 0 → AcceptanceEvaluator.decide d b u) :=
  ⟨Iff.rfl, fun hd => accept_of_nonpos hd hb hu1⟩

/-- Witness for C1: the move with delta_energy -1, beta 1, random_uniform 1/2
is accepted. -/
theorem decide_metropolis_formula_witness :
    AcceptanceEvaluator.decide (-1) 1 (1 / 2) :=
  (decide_metropolis_formula (-1) 1 (1 / 2) one_pos (by norm_num)
    (by norm_num)).2 (by norm_num)

/-- C2: for T1 distinct from T2 the exchange decision carries the probability
min(1, exp(-delta_energy / (kB (T1 - T2)))), and at delta_energy = 0 that
probability is exactly 1 (the exchange is always accepted). -/
theorem exchangeDecision_formula (kB d T1 T2 : ℝ) (h : T1 ≠ T2) :
    AcceptanceEvaluator.exchangeDecision kB d T1 T2 =
      .ok (min 1 (Real.exp (-(d / (kB * (T1 - T2)))))) ∧
    AcceptanceEvaluator.exchangeDecision kB 0 T1 T2 = .ok 1 := by
  constructor
  · unfold AcceptanceEvaluator.exchangeDecision
    rw [if_neg h]
  · unfold AcceptanceEvaluator.exchangeDecision
    rw [if_neg h]
    simp [zero_div, Real.exp_zero]

/-- Witness for C2: at kB = 1, temperatures 400 and 500, delta_energy 0 the
exchange probability is 1. -/
theorem exchangeDecision_formula_witness :
    AcceptanceEvaluator.exchangeDecision 1 0 400 500 = .ok 1 :=
  (exchangeDecision_formula 1 0 400 500 (by norm_num)).2

/-- C3: the exchange formula invoked with T1 = T2 yields the distinct
DegenerateExchange error instead of a probability, and a run whose configured
ladder contains a degenerate adjacent replica pair fails at setup with that
error, with zero simulation steps executed. -/
theorem degenerate_exchange_fails_fast :
    (∀ kB d T1 T2 : ℝ, T1 = T2 →
      AcceptanceEvaluator.exchangeDecision kB d T1 T2 =
        .error .degenerateExchange) ∧
    (∀ (temps : List ℝ) (cfg : SchedulerConfig), degenerateAdjacent temps →
      runSimulation temps cfg = (.error .degenerateExchange, 0)) := by
  constructor
  · intro kB d T1 T2 h
    unfold AcceptanceEvaluator.exchangeDecision
    rw [if_pos h]
  · intro temps cfg h
    unfold runSimulation setup
    rw [if_pos h]

/-- Witness for C3: equal temperatures 300 and 300 produce DegenerateExchange,
both at the exchange formula and at setup of a run over the ladder
[300, 300]. -/
theorem degenerate_exchange_fails_fast_witness :
    AcceptanceEvaluator.exchangeDecision 1 2 300 300 =
      .error .degenerateExchange ∧
    runSimulation [300, 300] ⟨100, 10⟩ = (.error .degenerateExchange, 0) :=
  ⟨degenerate_exchange_fails_fast.1 1 2 300 300 rfl,
   degenerate_exchange_fails_fast.2 [300, 300] ⟨100, 10⟩ (Or.inl rfl)⟩

/-- Helper: setting one entry of a list trades the old entry for the new one
in every count. -/
lemma count_set_add (l : List ℕ) (i : ℕ) (h : i < l.length) (a x : ℕ) :
    (l.set i a).count x + (if l.getD i 0 = x then 1 else 0) =
      l.count x + (if a = x then 1 else 0) := by
  induction l generalizing i with
  | nil => simp at h
  | cons hd tl ih =>
    cases i with
    | zero =>
      simp only [List.set_cons_zero, List.getD_cons_zero, List.count_cons,
        beq_iff_eq]
      split_ifs <;> omega
    | succ n =>
      have h2 : n < tl.length := by simpa using h
      have hrec := ih n h2
      simp only [List.set_cons_succ, List.getD_cons_succ, List.count_cons,
        beq_iff_eq]
      split_ifs at hrec ⊢ <;> omega

/-- Helper: the swap step keeps the length of the species list. -/
lemma length_applySwap (c : Configuration) (i j : ℕ) :
    (applySwap c i j).species.length = c.species.length := by
  simp [applySwap]

/-- Helper: the swap step keeps every species count, for distinct in-range
indices. -/
lemma count_applySwap (c : Configuration) (i j : ℕ) (hi : i < c.species.length)
    (hj : j < c.species.length) (hij : i ≠ j) (x : ℕ) :
    (applySwap c i j).species.count x = c.species.count x := by
  have hj2 : j < (c.species.set i (c.species.getD j 0)).length := by
    simpa using hj
  have hA := count_set_add (c.species.set i (c.species.getD j 0)) j hj2
      (c.species.getD i 0) x
  have hB := count_set_add c.species i hi (c.species.getD j 0) x
  have hgd : (c.species.set i (c.species.getD j 0)).getD j 0 =
      c.species.getD j 0 := by
    rw [List.getD_eq_getElem?_getD, List.getElem?_set_ne hij,
      ← List.getD_eq_getElem?_getD]
  rw [hgd] at hA
  show ((c.species.set i (c.species.getD j 0)).set j
      (c.species.getD i 0)).count x = c.species.count x
  exact Nat.add_right_cancel (hA.trans hB)

/-- C4: an atom-swap move at two distinct in-range sites, whether accepted or
rejected, keeps the total atom count and every per-species count of the
configuration. -/
theorem swap_conserves_composition (c : Configuration) (i j : ℕ)
    (hi : i < c.species.length) (hj : j < c.species.length) (hij : i ≠ j)
    (accepted : Bool) :
    (applyMove c i j accepted).species.length = c.species.length ∧
    ∀ x : ℕ, (applyMove c i j accepted).species.count x =
      c.species.count x := by
  cases accepted with
  | false => exact ⟨rfl, fun x => rfl⟩
  | true =>
    refine ⟨?_, fun x => ?_⟩
    · simpa [applyMove] using length_applySwap c i j
    · simpa [applyMove] using count_applySwap c i j hi hj hij x

/-- Witness for C4: swapping sites 0 and 2 of the species list [1, 2, 3]
keeps the length and the count of species 1. -/
theorem swap_conserves_composition_witness :
    (applyMove ⟨[], [1, 2, 3]⟩ 0 2 true).species.length =
      (Configuration.mk [] [1, 2, 3]).species.length ∧
    (applyMove ⟨[], [1, 2, 3]⟩ 0 2 true).species.count 1 =
      (Configuration.mk [] [1, 2, 3]).species.count 1 :=
  ⟨(swap_conserves_composition ⟨[], [1, 2, 3]⟩ 0 2 (by decide) (by decide)
      (by decide) true).1,
   (swap_conserves_composition ⟨[], [1, 2, 3]⟩ 0 2 (by decide) (by decide)
      (by decide) true).2 1⟩

/-- Helper: writing back the entry a list already holds at an index leaves the
list unchanged. -/
lemma set_of_getElem_eq {α : Type} (l : List α) (i : ℕ) (x : α)
    (h : l[i]? = some x) : l.set i x = l := by
  apply List.ext_getElem?
  intro n
  rcases eq_or_ne i n with rfl | hne
  · rcases List.getElem?_eq_some.1 h with ⟨h1, _⟩
    rw [List.getElem?_set_eq_of_lt x h1, h]
  · rw [List.getElem?_set_ne hne]

/-- C5: an accepted replica exchange only moves configurations between the two
ranks — the two Configurations are swapped, the temperature attached to every
rank is unchanged, and every other rank is untouched. -/
theorem exchange_swaps_configs_preserves_temps (rs : List Replica) (a b : ℕ)
    (ra rb : Replica) (ha : rs[a]? = some ra) (hb : rs[b]? = some rb)
    (hab : a ≠ b) :
    (applyExchange rs a b).map Replica.temp = rs.map Replica.temp ∧
    (applyExchange rs a b)[a]? = some { ra with config := rb.config } ∧
    (applyExchange rs a b)[b]? = some { rb with config := ra.config } ∧
    ∀ k : ℕ, k ≠ a → k ≠ b → (applyExchange rs a b)[k]? = rs[k]? := by
  rcases List.getElem?_eq_some.1 ha with ⟨hal, _⟩
  rcases List.getElem?_eq_some.1 hb with ⟨hbl, _⟩
  have hex : applyExchange rs a b =
      (rs.set a { ra with config := rb.config }).set b
        { rb with config := ra.config } := by
    unfold applyExchange
    rw [ha, hb]
  refine ⟨?_, ?_, ?_, ?_⟩
  · rw [hex, List.map_set, List.map_set]
    have h1 : (rs.map Replica.temp)[a]? = some ra.temp := by
      rw [List.getElem?_map, ha]; rfl
    have h2 : ((rs.map Replica.temp).set a ra.temp)[b]? = some rb.temp := by
      rw [List.getElem?_set_ne hab, List.getElem?_map, hb]; rfl
    rw [show ({ ra with config := rb.config } : Replica).temp = ra.temp
        from rfl]
    rw [show ({ rb with config := ra.config } : Replica).temp = rb.temp
        from rfl]
    rw [set_of_getElem_eq _ a _ h1, set_of_getElem_eq _ b _ ?_]
    rw [List.getElem?_map, hb]; rfl
  · rw [hex, List.getElem?_set_ne (Ne.symm hab),
      List.getElem?_set_eq_of_lt _ hal]
  · rw [hex]
    have hbl2 : b < (rs.set a { ra with config := rb.config }).length := by
      simpa using hbl
    rw [List.getElem?_set_eq_of_lt _ hbl2]
  · intro k hka hkb
    rw [hex, List.getElem?_set_ne (Ne.symm hkb), List.getElem?_set_ne
      (Ne.symm hka)]

/-- Witness for C5: exchanging the two replicas of a concrete pair keeps the
temperatures 300 and 400 attached to their ranks. -/
theorem exchange_swaps_configs_preserves_temps_witness :
    (applyExchange [⟨⟨[], [1]⟩, 300⟩, ⟨⟨[], [2]⟩, 400⟩] 0 1).map Replica.temp =
      ([⟨⟨[], [1]⟩, 300⟩, ⟨⟨[], [2]⟩, 400⟩] : List Replica).map Replica.temp :=
  (exchange_swaps_configs_preserves_temps
    [⟨⟨[], [1]⟩, 300⟩, ⟨⟨[], [2]⟩, 400⟩] 0 1 ⟨⟨[], [1]⟩, 300⟩ ⟨⟨[], [2]⟩, 400⟩
    rfl rfl (by decide)).1

/-- Helper: the eligible sites form a duplicate-free list of site indices. -/
lemma eligibleSites_nodup (c : Configuration) (g : EligibilityGroup) :
    (eligibleSites c g).Nodup :=
  (List.nodup_range _).filter _

/-- C6: propose fails with InsufficientCandidates exactly on configurations
with fewer than two eligible sites; with at least two eligible sites it
returns two distinct site indices that are both eligible. -/
theorem propose_insufficient_or_distinct (c : Configuration)
    (g : EligibilityGroup) (r : ℕ) :
    ((eligibleSites c g).length < 2 →
      AtomSwapProposer.propose c g r = .error .insufficientCandidates) ∧
    (2 ≤ (eligibleSites c g).length →
      ∃ i j : ℕ, AtomSwapProposer.propose c g r = .ok (i, j) ∧ i ≠ j ∧
        i ∈ eligibleSites c g ∧ j ∈ eligibleSites c g) := by
  constructor
  · intro h
    unfold AtomSwapProposer.propose
    simp only
    rw [if_pos h]
  · intro h
    have hn : ¬ (eligibleSites c g).length < 2 := not_lt.2 h
    unfold AtomSwapProposer.propose
    simp only
    rw [if_neg hn]
    set es := eligibleSites c g with hes
    set k1 := r % es.length with hk1def
    set k2raw := (r / es.length) % (es.length - 1) with hk2rawdef
    have hlen : 2 ≤ es.length := h
    have hk1 : k1 < es.length := Nat.mod_lt _ (by omega)
    have hk2raw : k2raw < es.length - 1 := Nat.mod_lt _ (by omega)
    set k2 := if k2raw < k1 then k2raw else k2raw + 1 with hk2def
    have hk2 : k2 < es.length := by
      rw [hk2def]; split_ifs <;> omega
    have hkne : k1 ≠ k2 := by
      rw [hk2def]; split_ifs <;> omega
    refine ⟨es.getD k1 0, es.getD k2 0, rfl, ?_, ?_, ?_⟩
    · rw [List.getD_eq_getElem es 0 hk1, List.getD_eq_getElem es 0 hk2]
      intro hcontra
      apply hkne
      have h2 : (⟨k1, hk1⟩ : Fin es.length) = ⟨k2, hk2⟩ :=
        List.nodup_iff_injective_get.1 (eligibleSites_nodup c g)
          (by simpa using hcontra)
      simpa using h2
    · rw [List.getD_eq_getElem es 0 hk1]
      exact List.getElem_mem hk1
    · rw [List.getD_eq_getElem es 0 hk2]
      exact List.getElem_mem hk2

/-- Witness for C6: with species [29, 26, 29] and the element-restricted group
[26] only one site is eligible, so propose reports InsufficientCandidates. -/
theorem propose_insufficient_or_distinct_witness :
    AtomSwapProposer.propose ⟨[], [29, 26, 29]⟩
      (.elementRestricted [26]) 0 = .error .insufficientCandidates :=
  (propose_insufficient_or_distinct ⟨[], [29, 26, 29]⟩
    (.elementRestricted [26]) 0).1 (by decide)

/-- C7: the proposal leaves the configuration untouched — the move step keeps
the original configuration whenever the proposal fails or the acceptance test
rejects, and only after the acceptance test succeeds is the swap applied, as a
separate step, at exactly the two proposed indices. -/
theorem propose_pure_mutation_separate (c : Configuration)
    (g : EligibilityGroup) (r : ℕ) (deltaEnergy : ℕ × ℕ → ℝ) (beta u : ℝ) :
    (∀ e : MCError, AtomSwapProposer.propose c g r = .error e →
      swapMoveStep c g r deltaEnergy beta u = c) ∧
    (∀ i j : ℕ, AtomSwapProposer.propose c g r = .ok (i, j) →
      ¬ AcceptanceEvaluator.decide (deltaEnergy (i, j)) beta u →
      swapMoveStep c g r deltaEnergy beta u = c) ∧
    (∀ i j : ℕ, AtomSwapProposer.propose c g r = .ok (i, j) →
      AcceptanceEvaluator.decide (deltaEnergy (i, j)) beta u →
      swapMoveStep c g r deltaEnergy beta u = applySwap c i j) := by
  refine ⟨?_, ?_, ?_⟩
  · intro e he
    unfold swapMoveStep
    rw [he]
  · intro i j hij hdec
    unfold swapMoveStep
    rw [hij]
    simp only
    rw [if_neg hdec]
  · intro i j hij hdec
    unfold swapMoveStep
    rw [hij]
    simp only
    rw [if_pos hdec]

/-- Witness for C7: on species [1, 2] with the any-pair group the proposal is
(0, 1); with delta_energy -1, beta 1 and random_uniform 1/2 the move is
accepted and the step is exactly the swap at the proposed indices. -/
theorem propose_pure_mutation_separate_witness :
    swapMoveStep ⟨[], [1, 2]⟩ .anyPair 0 (fun _ => -1) 1 (1 / 2) =
      applySwap ⟨[], [1, 2]⟩ 0 1 :=
  (propose_pure_mutation_separate ⟨[], [1, 2]⟩ .anyPair 0 (fun _ => -1) 1
    (1 / 2)).2.2 0 1 rfl (accept_of_nonpos (by norm_num) one_pos (by norm_num))

/-- C8: the acceptance decision is a function of the explicit arguments alone:
two invocations with identical delta_energy, beta and random_uniform yield the
same decision (there is no ambient state for it to read). -/
theorem decide_deterministic (d b u d2 b2 u2 : ℝ) (h1 : d = d2) (h2 : b = b2)
    (h3 : u = u2) :
    (AcceptanceEvaluator.decide d b u ↔ AcceptanceEvaluator.decide d2 b2 u2) :=
  by subst h1; subst h2; subst h3; exact Iff.rfl

/-- Witness for C8: two calls at delta_energy 0, beta 1, random_uniform 1/2
agree. -/
theorem decide_deterministic_witness :
    (AcceptanceEvaluator.decide 0 1 (1 / 2) ↔
      AcceptanceEvaluator.decide 0 1 (1 / 2)) :=
  decide_deterministic 0 1 (1 / 2) 0 1 (1 / 2) rfl rfl rfl

/-- Helper: a terminated scheduler state is a fixed point of the transition
function. -/
lemma tick_of_terminated (cfg : SchedulerConfig) (s : SchedulerState)
    (h : s.phase = .Terminated) : tick cfg s = s := by
  unfold tick
  rw [h]

/-- C9: the scheduler enters Terminated exactly when the configured total step
count is reached, and from Terminated no sequence of further transitions ever
changes the state. -/
theorem scheduler_terminates_at_total_steps (cfg : SchedulerConfig) :
    (∀ s : SchedulerState, s.phase = .Terminated → tick cfg s = s) ∧
    (∀ (s : SchedulerState) (k : ℕ), s.phase = .Terminated →
      (tick cfg)^[k] s = s) ∧
    (∀ n : ℕ, ((tick cfg ⟨.Running, n⟩).phase = .Terminated ↔
      cfg.totalSteps ≤ n + 1)) := by
  refine ⟨tick_of_terminated cfg, ?_, ?_⟩
  · intro s k h
    induction k with
    | zero => rfl
    | succ k ih =>
      rw [Function.iterate_succ_apply, tick_of_terminated cfg s h, ih]
  · intro n
    show (if cfg.totalSteps ≤ n + 1 then
        ({ phase := .Terminated, stepCount := n + 1 } : SchedulerState)
      else if (n + 1) % cfg.exchangeInterval = 0 then
        { phase := .ExchangeDue, stepCount := n + 1 }
      else { phase := .Running, stepCount := n + 1 }).phase = .Terminated ↔
      cfg.totalSteps ≤ n + 1
    split_ifs with hstop hdue <;> simp_all

/-- Witness for C9: from the terminated state at step 100 no transition is
accepted. -/
theorem scheduler_terminates_at_total_steps_witness :
    tick ⟨100, 10⟩ ⟨.Terminated, 100⟩ = ⟨.Terminated, 100⟩ :=
  (scheduler_terminates_at_total_steps ⟨100, 10⟩).1 ⟨.Terminated, 100⟩ rfl

/-- C10: the only executable behavior of the tutorial module is to read all
frames of resources/hea.xyz and hand exactly those frames, unmodified, to the
visualization call; the value the visualization returns is never consumed, so
the trace is the same for every visualization implementation. -/
theorem script_only_reads_and_shows {α β : Type}
    (readAll : String → String → List Configuration)
    (showFn : List Configuration → String → α)
    (showFn2 : List Configuration → String → β) :
    heaScriptTrace readAll showFn = heaScriptTrace readAll showFn2 ∧
    heaScriptTrace readAll showFn =
      [ExtCall.readFrames "resources/hea.xyz" ":",
       ExtCall.showStructures (readAll "resources/hea.xyz" ":") "structure"] :=
  ⟨rfl, rfl⟩
